import Mathlib

/-!
Verification of `pdf-title-rename` (src/pdf-title-rename.py).

Shallow embedding conventions:
- Python strings are modelled as `List Char`, Python bytes as `List Nat`.
- `None` / optional values become `Option`; Python truthiness of an optional
  string (`None` and `""` are falsy) is `truthy`.
- Uncaught Python exceptions become `Except` errors (`PyErr`).
- Console output is modelled structurally: each `print` statement in the
  source corresponds to one `PrintLine` constructor carrying its payload.
- The PDF container parser and the XMP parser are external collaborators;
  their per-file outcomes are inputs to the embedded functions
  (`ParseResult`, `XmpOutcome`), exactly as the source consumes them.
-/

namespace PdfTitleRename

/-- Python ASCII whitespace, as stripped by `str.strip()` and split on by
`str.split()` (the characters space, tab, newline, carriage return,
vertical tab, form feed). -/
def pyIsSpace (c : Char) : Bool :=
  c = ' ' || c = '\t' || c = '\n' || c = '\r' || c = Char.ofNat 11 || c = Char.ofNat 12

/-- Python `str.strip()`: remove leading and trailing whitespace. -/
def pyStrip (s : List Char) : List Char :=
  ((s.dropWhile pyIsSpace).reverse.dropWhile pyIsSpace).reverse

/-- Python `str.lower()` (ASCII approximation of the Unicode mapping). -/
def pyLower (s : List Char) : List Char :=
  s.map Char.toLower

/-- The `keep` allow-list of `_sanitize`:
`keep = [" ", ".", "_", "-", "—"]`. -/
def keepChars : List Char := [' ', '.', '_', '-', '—']

/-- Python `c.isalnum()` (ASCII approximation of the Unicode classes). -/
def pyIsAlnum (c : Char) : Bool := c.isAlphanum

/-- `_sanitize(s)`: keep alphanumeric and allow-listed characters
(every other character is dropped), then strip the result. -/
def sanitize (s : List Char) : List Char :=
  pyStrip (s.filter (fun c => pyIsAlnum c || keepChars.contains c))

/-- Python truthiness of an optional string: `None` and `""` are falsy. -/
def truthy : Option (List Char) → Bool
  | none => false
  | some s => !s.isEmpty

/-- `_new_filename(title, author)`: sanitize the title; if the author is
truthy, prepend the sanitized author joined with `" - "`; truncate the
combined name to 250 characters and append `".pdf"`. -/
def newFilename (title : List Char) (author : Option (List Char)) : List Char :=
  let n := sanitize title
  let n := if truthy author then sanitize (author.getD []) ++ (" - ".toList) ++ n else n
  (n.take 250) ++ (".pdf".toList)

/-! ### Helper lemmas on `pyStrip` -/

theorem mem_dropWhile {p : Char → Bool} {l : List Char} {c : Char}
    (h : c ∈ l.dropWhile p) : c ∈ l := by
  induction l with
  | nil => simp [List.dropWhile] at h
  | cons a t ih =>
    by_cases hp : p a = true
    · simp [List.dropWhile, hp] at h
      exact List.mem_cons_of_mem a (ih h)
    · simp [List.dropWhile, hp] at h
      simp [h]

theorem mem_pyStrip {l : List Char} {c : Char} (h : c ∈ pyStrip l) : c ∈ l := by
  unfold pyStrip at h
  rw [List.mem_reverse] at h
  have h2 := mem_dropWhile h
  rw [List.mem_reverse] at h2
  exact mem_dropWhile h2

theorem head_dropWhile_not {p : Char → Bool} {l : List Char} {c : Char}
    (h : (l.dropWhile p).head? = some c) : p c = false := by
  induction l with
  | nil => simp [List.dropWhile] at h
  | cons a t ih =>
    by_cases hp : p a = true
    · rw [List.dropWhile_cons_of_pos hp] at h
      exact ih h
    · rw [List.dropWhile_cons_of_neg hp] at h
      simp at h
      rw [← h]
      simpa using hp

theorem head_pyStrip_not_space {l : List Char} {c : Char}
    (h : (pyStrip l).head? = some c) : pyIsSpace c = false := by
  unfold pyStrip at h
  set A := l.dropWhile pyIsSpace with hA
  set B := A.reverse.dropWhile pyIsSpace with hB
  have hsuf : B <:+ A.reverse := List.dropWhile_suffix pyIsSpace
  have hpre : B.reverse <+: A := by
    have := List.reverse_prefix.mpr hsuf
    simpa using this
  obtain ⟨t, ht⟩ := hpre
  have hAhead : A.head? = some c := by
    rw [← ht]
    cases hrev : B.reverse with
    | nil => rw [hrev] at h; simp at h
    | cons x xs =>
      rw [hrev] at h
      simp at h
      simp [hrev, h]
  exact head_dropWhile_not hAhead

theorem getLast_pyStrip_not_space {l : List Char} {c : Char}
    (h : (pyStrip l).getLast? = some c) : pyIsSpace c = false := by
  unfold pyStrip at h
  rw [List.getLast?_reverse] at h
  exact head_dropWhile_not h

/-! ### C8: sanitizer output alphabet and trimming -/

/-- C8: for every input string, every character of `_sanitize`'s output is
alphanumeric or on the fixed allow-list (space, period, underscore, hyphen,
em-dash) — all other characters are dropped — and the output has neither a
leading nor a trailing whitespace character. -/
theorem sanitize_allowed_and_trimmed (s : List Char) :
    ((sanitize s).all (fun c => pyIsAlnum c || keepChars.contains c)) = true ∧
    ((sanitize s).head?.all (fun c => !pyIsSpace c)) = true ∧
    ((sanitize s).getLast?.all (fun c => !pyIsSpace c)) = true := by
  refine ⟨?_, ?_, ?_⟩
  · rw [List.all_eq_true]
    intro c hc
    have := mem_pyStrip hc
    exact (List.mem_filter.mp this).2
  · cases hh : (sanitize s).head? with
    | none => simp
    | some c =>
      simp only [Option.all_some]
      have := head_pyStrip_not_space (l := s.filter (fun c => pyIsAlnum c || keepChars.contains c)) hh
      simp [this]
  · cases hh : (sanitize s).getLast? with
    | none => simp
    | some c =>
      simp only [Option.all_some]
      have := getLast_pyStrip_not_space (l := s.filter (fun c => pyIsAlnum c || keepChars.contains c)) hh
      simp [this]

/-! ### C9: sanitizer idempotence -/

theorem dropWhile_eq_self_of_head {p : Char → Bool} {l : List Char}
    (h : ∀ c, l.head? = some c → p c = false) : l.dropWhile p = l := by
  cases l with
  | nil => simp [List.dropWhile]
  | cons a t =>
    have := h a (by simp)
    simp [List.dropWhile, this]

theorem pyStrip_idem (l : List Char) : pyStrip (pyStrip l) = pyStrip l := by
  have h1 : (pyStrip l).dropWhile pyIsSpace = pyStrip l := by
    apply dropWhile_eq_self_of_head
    intro c hc
    exact head_pyStrip_not_space hc
  have h2 : (pyStrip l).reverse.dropWhile pyIsSpace = (pyStrip l).reverse := by
    apply dropWhile_eq_self_of_head
    intro c hc
    rw [List.head?_reverse] at hc
    exact getLast_pyStrip_not_space hc
  show (((pyStrip l).dropWhile pyIsSpace).reverse.dropWhile pyIsSpace).reverse = pyStrip l
  rw [h1, h2, List.reverse_reverse]

/-- C9: sanitization is idempotent — sanitizing an already-sanitized string
yields the same string. -/
theorem sanitize_idempotent (s : List Char) : sanitize (sanitize s) = sanitize s := by
  unfold sanitize
  have hfilter :
      (pyStrip (s.filter (fun c => pyIsAlnum c || keepChars.contains c))).filter
        (fun c => pyIsAlnum c || keepChars.contains c) =
      pyStrip (s.filter (fun c => pyIsAlnum c || keepChars.contains c)) := by
    apply List.filter_eq_self.mpr
    intro c hc
    exact (List.mem_filter.mp (mem_pyStrip hc)).2
  rw [hfilter, pyStrip_idem]

/-! ### C4: filename length bound -/

/-- C4: for every title and optional author, the filename built by
`_new_filename` has length at most 254 characters including `".pdf"`. -/
theorem newFilename_length_le (t : List Char) (a : Option (List Char)) :
    (newFilename t a).length ≤ 254 := by
  unfold newFilename
  simp only [List.length_append, List.length_take]
  have h1 : (".pdf".toList).length = 4 := by decide
  rw [h1]
  have := Nat.min_le_left 250
    (if truthy a then sanitize (a.getD []) ++ (" - ".toList) ++ sanitize t else sanitize t).length
  omega

/-! ### UTF-8 decoding (Python `bytes.decode("utf-8")`, strict) -/

/-- A UTF-8 continuation byte. -/
def isCont (b : Nat) : Bool := 0x80 ≤ b && b < 0xC0

/-- Strict UTF-8 decoding of a byte list, `none` on any invalid sequence
(continuation byte in lead position, truncated sequence, overlong form,
surrogate, or code point above U+10FFFF) — the model of Python's
`bytes.decode("utf-8")`, where `none` is a `UnicodeDecodeError`. -/
def utf8Decode : List Nat → Option (List Char)
  | [] => some []
  | b :: rest =>
    if b < 0x80 then
      (utf8Decode rest).map (fun cs => Char.ofNat b :: cs)
    else if b < 0xC2 then none
    else if b < 0xE0 then
      match rest with
      | b1 :: rest1 =>
        if isCont b1 then
          (utf8Decode rest1).map (fun cs => Char.ofNat ((b - 0xC0) * 0x40 + (b1 - 0x80)) :: cs)
        else none
      | [] => none
    else if b < 0xF0 then
      match rest with
      | b1 :: b2 :: rest2 =>
        if isCont b1 && isCont b2 then
          let cp := (b - 0xE0) * 0x1000 + (b1 - 0x80) * 0x40 + (b2 - 0x80)
          if cp < 0x800 then none
          else if 0xD800 ≤ cp && cp < 0xE000 then none
          else (utf8Decode rest2).map (fun cs => Char.ofNat cp :: cs)
        else none
      | _ => none
    else if b < 0xF5 then
      match rest with
      | b1 :: b2 :: b3 :: rest3 =>
        if isCont b1 && isCont b2 && isCont b3 then
          let cp := (b - 0xF0) * 0x40000 + (b1 - 0x80) * 0x1000 + (b2 - 0x80) * 0x40 + (b3 - 0x80)
          if cp < 0x10000 || 0x110000 ≤ cp then none
          else (utf8Decode rest3).map (fun cs => Char.ofNat cp :: cs)
        else none
      | _ => none
    else none

/-- ASCII encoding, used to build concrete byte-string test data. -/
def asciiBytes (s : List Char) : List Nat := s.map Char.toNat

/-! ### Data model of the extractor -/

/-- Uncaught Python exceptions that can escape `_get_info`. -/
inductive PyErr where
  /-- `AttributeError`: `self.doc` read before any successful parse assigned it. -/
  | attributeErrorNoDoc
  /-- `UnicodeDecodeError` from the unguarded creator `decode` call. -/
  | unicodeDecodeErr
  /-- `IndexError` from `_au_last_name` on a token-less name. -/
  | indexErr
  deriving DecidableEq

/-- A value obtained after `_resolve_objref`. -/
inductive ResolvedVal where
  /-- A Python `bytes` object. -/
  | vbytes (bs : List Nat)
  /-- A `str` the PDF library already decoded (no `decode` method). -/
  | vstr (s : List Char)
  /-- Any other object without a `decode` method. -/
  | vother
  deriving DecidableEq

/-- An info-dictionary value, possibly an indirect reference. -/
inductive InfoVal where
  | direct (v : ResolvedVal)
  /-- A `PDFObjRef`; its `resolve()` yields `v`. -/
  | indirect (v : ResolvedVal)
  deriving DecidableEq

/-- `_resolve_objref`: resolve an indirect reference, pass anything else
through unchanged. -/
def resolveObjref : InfoVal → ResolvedVal
  | .direct v => v
  | .indirect v => v

/-- One console line; each `print` in the source is one constructor. -/
inductive PrintLine where
  | processing (f : List Char)
  | decodeErrorTitle (raw : List Nat)
  | decodeErrorAuthor (raw : List Nat)
  | missingMetadata
  | renamingTo (newf : List Char)
  | renameError
  | filedTo (dest : List Char)
  | moveError
  | processedHeader (n : Nat) (dryRun : Bool)
  | renamedCount (n : Nat)
  | filedCount (n : Nat)
  | missingCount (n : Nat)
  | errorsCount (n : Nat)
  deriving DecidableEq

/-- The `try: field = val.decode("utf-8")` pattern of `_get_info`: only a
bytes value that decodes as UTF-8 populates the field; a non-bytes value
raises `AttributeError`, silently swallowed; bytes that fail to decode
raise `UnicodeDecodeError`, reported on the console and swallowed. -/
def extractField (mk : List Nat → PrintLine) (v : ResolvedVal) :
    Option (List Char) × List PrintLine :=
  match v with
  | .vbytes bs =>
    match utf8Decode bs with
    | some s => (some s, [])
    | none => (none, [mk bs])
  | .vstr _ => (none, [])
  | .vother => (none, [])

/-- `if "Title" in info: ...` — an absent key leaves the field unset. -/
def infoField (mk : List Nat → PrintLine) (v : Option InfoVal) :
    Option (List Char) × List PrintLine :=
  match v with
  | none => (none, [])
  | some r => extractField mk (resolveObjref r)

/-- The document's info dictionary, restricted to the two keys the
extractor reads. -/
structure InfoDict where
  /-- The `"Title"` entry, when the key is present. -/
  title : Option InfoVal
  /-- The `"Author"` entry, when the key is present. -/
  author : Option InfoVal
  deriving DecidableEq

/-- The empty dictionary `{}`. -/
def emptyInfo : InfoDict := ⟨none, none⟩

/-- The XMP `dc:creator` value: a byte string, a string, or a list of
strings. -/
inductive XmpCreator where
  | cbytes (bs : List Nat)
  | cstr (s : List Char)
  | clist (l : List (List Char))
  deriving DecidableEq

/-- The nested mapping produced by `xmp_to_dict`, restricted to the keys
the extractor reads. -/
structure XmpDict where
  /-- `md["dc"]["title"]["x-default"]`, when the keys are present. -/
  titleXDefault : Option (List Char)
  /-- `md["dc"]["creator"]`, when the keys are present. -/
  creator : Option XmpCreator
  deriving DecidableEq

/-- The outcome of running `xmp_to_dict` on the raw metadata stream. -/
inductive XmpOutcome where
  /-- `xmp_to_dict` raised; the bare `except` returns `(None, None)`. -/
  | parseFailed
  | parsed (md : XmpDict)
  deriving DecidableEq

/-- A successfully parsed `PDFDocument`, as the extractor consumes it. -/
structure PdfDoc where
  /-- `doc.info`; `none` models a missing `info` attribute. -/
  info : Option (List InfoDict)
  /-- Whether `"Metadata"` is in `doc.catalog`. -/
  catalogHasMetadata : Bool
  /-- Outcome of fetching and parsing the catalog's metadata stream. -/
  xmp : XmpOutcome
  deriving DecidableEq

/-- What `PDFDocument(parser)` does for one input file. -/
inductive ParseResult where
  /-- The constructor raised `PDFSyntaxError` (malformed container). -/
  | synErr
  | ok (doc : PdfDoc)
  deriving DecidableEq

/-- The renamer's instance state: the `self.doc` attribute, which exists
only after a successful parse has assigned it. -/
structure RState where
  doc : Option PdfDoc
  deriving DecidableEq

/-- `doc.info[0]` guarded by the `hasattr`/`len` check of `_get_metadata`. -/
def firstInfoDict (doc : PdfDoc) : InfoDict :=
  match doc.info with
  | some (d :: _) => d
  | _ => emptyInfo

/-- `_get_metadata`: on a `PDFSyntaxError` return `{}` and leave `self.doc`
untouched (the assignment never ran); otherwise assign `self.doc` and
return the first info dictionary (or `{}` when the `info` attribute is
missing or the list is empty). -/
def getMetadata (st : RState) (pr : ParseResult) : RState × InfoDict :=
  match pr with
  | .synErr => (st, emptyInfo)
  | .ok doc => (RState.mk (some doc), firstInfoDict doc)

/-- Python `str.split()` with no argument: split on whitespace runs,
discarding empty pieces. -/
def pySplit (s : List Char) : List (List Char) :=
  (s.splitOnP pyIsSpace).filter (fun p => !p.isEmpty)

/-- `_au_last_name(name)` = `name.split()[-1]`; `none` models the
`IndexError` raised when the name has no tokens. -/
def auLastName (name : List Char) : Option (List Char) :=
  (pySplit name).getLast?

/-- The creator normalisation in `_get_xmp_metadata`: decode a bytes value
(an unguarded call, so a `UnicodeDecodeError` propagates) and wrap a single
string into a one-element list. -/
def creatorList : XmpCreator → Except PyErr (List (List Char))
  | .cbytes bs =>
    match utf8Decode bs with
    | some s => .ok [s]
    | none => .error .unicodeDecodeErr
  | .cstr s => .ok [s]
  | .clist l => .ok l

/-- `list(filter(bool, a))`: drop falsy (empty) entries. -/
def keptCreators (l : List (List Char)) : List (List Char) :=
  l.filter (fun s => !s.isEmpty)

/-- The creator reduction of `_get_xmp_metadata`: two or more creators give
`"<last token of first> <last token of last>"`, exactly one gives its last
token, none leaves the author unset. -/
def reduceCreator (c : XmpCreator) : Except PyErr (Option (List Char)) :=
  match creatorList c with
  | .error e => .error e
  | .ok l =>
    match keptCreators l with
    | [] => .ok none
    | [s] =>
      match auLastName s with
      | none => .error .indexErr
      | some t => .ok (some t)
    | s1 :: s2 :: r =>
      match auLastName s1 with
      | none => .error .indexErr
      | some t1 =>
        match auLastName ((s2 :: r).getLast (List.cons_ne_nil s2 r)) with
        | none => .error .indexErr
        | some t2 => .ok (some (t1 ++ ' ' :: t2))

/-- `_get_xmp_metadata`: a failed `xmp_to_dict` yields `(None, None)`; a
parsed mapping yields the `dc.title.x-default` candidate and the reduced
creator field. (The caller's `_resolve_objref` on these is the identity:
strings and `None` have no `resolve` method.) -/
def getXmpMetadata (x : XmpOutcome) : Except PyErr (Option (List Char) × Option (List Char)) :=
  match x with
  | .parseFailed => .ok (none, none)
  | .parsed md =>
    match md.creator with
    | none => .ok (md.titleXDefault, none)
    | some c =>
      match reduceCreator c with
      | .error e => .error e
      | .ok a => .ok (md.titleXDefault, a)

/-- The merge of `_get_info`: `if xmpt: title = xmpt` — a truthy XMP value
overrides the info-dictionary value. -/
def xmpOverride (infoVal xmpVal : Option (List Char)) : Option (List Char) :=
  if truthy xmpVal then xmpVal else infoVal

/-- The post-merge cleanup of `_get_info`: a present title is stripped, and
discarded when it lowercases to `"untitled"`. -/
def cleanupTitle : Option (List Char) → Option (List Char)
  | none => none
  | some s =>
    let s := pyStrip s
    if pyLower s = "untitled".toList then none else some s

/-- `_get_info` (non-interactive path; the trailing
`_interactive_info_query` hook is outside the scope of the modelled
claims). Returns the updated renamer state, the console lines printed, and
either the `(title, author)` pair or the uncaught exception. Note that the
XMP branch reads `self.doc`, which a failed parse leaves unassigned
(`AttributeError`) or stale from a previous file. -/
def getInfo (st : RState) (pr : ParseResult) :
    RState × List PrintLine × Except PyErr (Option (List Char) × Option (List Char)) :=
  let m := getMetadata st pr
  let t0 := infoField PrintLine.decodeErrorTitle m.2.title
  let a0 := infoField PrintLine.decodeErrorAuthor m.2.author
  match m.1.doc with
  | none => (m.1, t0.2 ++ a0.2, .error .attributeErrorNoDoc)
  | some d =>
    if d.catalogHasMetadata then
      match getXmpMetadata d.xmp with
      | .error e => (m.1, t0.2 ++ a0.2, .error e)
      | .ok (xt, xa) =>
        (m.1, t0.2 ++ a0.2, .ok (cleanupTitle (xmpOverride t0.1 xt), xmpOverride a0.1 xa))
    else
      (m.1, t0.2 ++ a0.2, .ok (cleanupTitle t0.1, a0.1))

/-! ### C10: non-bytes info values are silently ignored -/

/-- C10: an info-dictionary Title/Author entry whose resolved value is not
a bytes object (for example a value the library already decoded to `str`)
is silently left unset — no console line, no field value — and a field is
only ever populated by a successful UTF-8 decode of a bytes value. -/
theorem nonbytes_info_value_ignored (mk : List Nat → PrintLine) (v : ResolvedVal)
    (h : ∀ bs, v ≠ ResolvedVal.vbytes bs) :
    extractField mk v = (none, []) ∧
    (∀ w : ResolvedVal, ∀ s : List Char, (extractField mk w).1 = some s →
      ∃ bs, w = ResolvedVal.vbytes bs ∧ utf8Decode bs = some s) := by
  constructor
  · cases v with
    | vbytes bs => exact absurd rfl (h bs)
    | vstr s => rfl
    | vother => rfl
  · intro w s hw
    cases w with
    | vbytes bs =>
      cases hd : utf8Decode bs with
      | none => simp [extractField, hd] at hw
      | some u =>
        refine ⟨bs, rfl, ?_⟩
        simp [extractField, hd] at hw
        rw [hd, hw]
    | vstr u => simp [extractField] at hw
    | vother => simp [extractField] at hw

theorem nonbytes_info_value_ignored_witness :
    extractField PrintLine.decodeErrorTitle (ResolvedVal.vstr "Already a str".toList) = (none, []) :=
  (nonbytes_info_value_ignored PrintLine.decodeErrorTitle _
    (fun _ h => ResolvedVal.noConfusion h)).1

/-! ### C6: placeholder titles are discarded -/

/-- C6: an extracted title that, after trimming surrounding whitespace,
case-insensitively equals `"untitled"` is discarded by the extractor's
post-merge cleanup (the title is returned as unset). -/
theorem untitled_title_discarded (s : List Char)
    (h : pyLower (pyStrip s) = "untitled".toList) :
    cleanupTitle (some s) = none := by
  simp [cleanupTitle, h]

theorem untitled_title_discarded_witness :
    cleanupTitle (some "  UnTitLED  ".toList) = none :=
  untitled_title_discarded _ (by decide)

/-! ### C3: XMP values override the info dictionary -/

/-- C3: when the catalog carries XMP metadata that parses to candidates
`(xt, xa)`, the pair `_get_info` returns is built by the override merge —
a truthy (non-empty, present) XMP value replaces the info-dictionary value
and an empty or absent one leaves it standing — with the title then passed
through the post-merge cleanup. -/
theorem xmp_overrides_info (st : RState) (doc : PdfDoc) (xt xa : Option (List Char))
    (hm : doc.catalogHasMetadata = true)
    (hx : getXmpMetadata doc.xmp = .ok (xt, xa)) :
    ((getInfo st (.ok doc)).2.2 =
      .ok (cleanupTitle (xmpOverride (infoField PrintLine.decodeErrorTitle (firstInfoDict doc).title).1 xt),
           xmpOverride (infoField PrintLine.decodeErrorAuthor (firstInfoDict doc).author).1 xa)) ∧
    (∀ iv xv : Option (List Char), truthy xv = true → xmpOverride iv xv = xv) ∧
    (∀ iv xv : Option (List Char), truthy xv = false → xmpOverride iv xv = iv) := by
  refine ⟨?_, ?_, ?_⟩
  · simp [getInfo, getMetadata, hm, hx]
  · intro iv xv h
    simp [xmpOverride, h]
  · intro iv xv h
    simp [xmpOverride, h]

/-- Concrete document for the C3 witness: info dictionary and XMP both
supply a title and an author. -/
def c3DemoDoc : PdfDoc :=
  { info := some [{ title := some (.direct (.vbytes (asciiBytes "Info Title".toList))),
                    author := some (.indirect (.vbytes (asciiBytes "Info Author".toList))) }],
    catalogHasMetadata := true,
    xmp := .parsed { titleXDefault := some "Xmp Title".toList,
                     creator := some (.cstr "Jane Doe".toList) } }

theorem xmp_overrides_info_witness :
    (getInfo ⟨none⟩ (.ok c3DemoDoc)).2.2 = .ok (some "Xmp Title".toList, some "Doe".toList) := by
  have h := (xmp_overrides_info ⟨none⟩ c3DemoDoc (some "Xmp Title".toList) (some "Doe".toList)
      rfl rfl).1
  rw [h]
  rfl

/-! ### C5: creator-list reduction -/

/-- C5: after dropping falsy entries from the XMP creator value (a single
string or a list of strings): none left leaves the author unset; exactly
one left makes the author that creator's last whitespace-separated token;
two or more left make it the last token of the first creator, a space, and
the last token of the last creator. -/
theorem creator_reduction (c : XmpCreator) (l : List (List Char))
    (hc : creatorList c = .ok l) :
    (keptCreators l = [] → reduceCreator c = .ok none) ∧
    (∀ s t, keptCreators l = [s] → auLastName s = some t →
      reduceCreator c = .ok (some t)) ∧
    (∀ s1 s2 r t1 t2, keptCreators l = s1 :: s2 :: r →
      auLastName s1 = some t1 →
      auLastName ((s2 :: r).getLast (List.cons_ne_nil s2 r)) = some t2 →
      reduceCreator c = .ok (some (t1 ++ ' ' :: t2))) := by
  refine ⟨?_, ?_, ?_⟩
  · intro h
    simp only [reduceCreator, hc, h]
  · intro s t h1 h2
    simp only [reduceCreator, hc, h1, h2]
  · intro s1 s2 r t1 t2 h1 h2 h3
    simp only [reduceCreator, hc, h1, h2, h3]

theorem creator_reduction_witness :
    reduceCreator (.clist ["Jane Doe".toList, "John Q. Smith".toList]) =
      .ok (some "Doe Smith".toList) := by
  have h := (creator_reduction (.clist ["Jane Doe".toList, "John Q. Smith".toList])
      ["Jane Doe".toList, "John Q. Smith".toList] rfl).2.2
      "Jane Doe".toList "John Q. Smith".toList [] "Doe".toList "Smith".toList rfl rfl rfl
  rw [h]
  rfl

/-! ### Path helpers (`os.path` on POSIX) -/

/-- Python `str.rfind(c)`: index of the last occurrence, `-1` if absent. -/
def pyRfind (l : List Char) (c : Char) : Int :=
  match (l.enum.filter (fun p => p.2 = c)).getLast? with
  | none => -1
  | some p => Int.ofNat p.1

/-- `os.path.splitext` (POSIX): split off the extension at the last dot of
the basename, unless every character between the last separator and that
dot is itself a dot (leading dots never start an extension). -/
def splitext (p : List Char) : List Char × List Char :=
  let sepIndex := pyRfind p '/'
  let dotIndex := pyRfind p '.'
  if sepIndex < dotIndex then
    let s := (sepIndex + 1).toNat
    let d := dotIndex.toNat
    if ((p.drop s).take (d - s)).any (fun ch => ch ≠ '.') then
      (p.take d, p.drop d)
    else (p, [])
  else (p, [])

/-- `os.path.split` (POSIX): split after the last separator; the head is
stripped of trailing separators unless it consists only of separators. -/
def splitPath (p : List Char) : List Char × List Char :=
  let i := (pyRfind p '/' + 1).toNat
  let head := p.take i
  let tail := p.drop i
  let head :=
    if !head.isEmpty && !(head.all (fun ch => ch = '/')) then
      (head.reverse.dropWhile (fun ch => ch = '/')).reverse
    else head
  (head, tail)

/-- `os.path.join` (POSIX) for two components. -/
def pathJoin (a b : List Char) : List Char :=
  if b.head? = some '/' then b
  else if a.isEmpty || a.getLast? = some '/' then a ++ b
  else a ++ '/' :: b

/-! ### The batch driver (`main`) -/

/-- The summary counters accumulated across the batch (`Ntot` is the input
list's length and is not threaded). -/
structure Counters where
  renamed : Nat
  filed : Nat
  missing : Nat
  errors : Nat
  deriving DecidableEq

/-- All counters start at zero. -/
def initCounters : Counters := ⟨0, 0, 0, 0⟩

/-- A filesystem call the driver makes (`os.rename` or the `mv`
subprocess); recorded whether or not the call succeeds. -/
inductive FsEvent where
  | rename (src dst : List Char)
  | moveTo (src dest : List Char)
  deriving DecidableEq

/-- Per-file batch input: the command-line path, the parse outcome the PDF
library produces for the file, and the outcomes the filesystem would give
the driver's calls, should it make them. -/
structure FileJob where
  path : List Char
  parse : ParseResult
  renameOk : Bool
  moveOk : Bool
  deriving DecidableEq

/-- The effect of one iteration of the `main` loop. -/
structure StepOut where
  err : Option PyErr
  st : RState
  cnt : Counters
  events : List FsEvent
  lines : List PrintLine
  deriving DecidableEq

/-- The body of one `main`-loop iteration, given the result of
`_get_info` for the file. -/
def stepCore (dryRun : Bool) (dest : Option (List Char)) (job : FileJob)
    (g : RState × List PrintLine × Except PyErr (Option (List Char) × Option (List Char)))
    (cnt : Counters) : StepOut :=
  let root := (splitext job.path).1
  let dirBase := splitPath root
  match g.2.2 with
  | .error e => ⟨some e, g.1, cnt, [], PrintLine.processing job.path :: g.2.1⟩
  | .ok (title, author) =>
    let title := if truthy author && !truthy title then some dirBase.2 else title
    if !(truthy author || truthy title) then
      ⟨none, g.1, { cnt with missing := cnt.missing + 1 }, [],
        PrintLine.processing job.path :: g.2.1 ++ [PrintLine.missingMetadata]⟩
    else
      let newf := pathJoin dirBase.1 (newFilename (title.getD []) author)
      let lines := PrintLine.processing job.path :: g.2.1 ++ [PrintLine.renamingTo newf]
      if dryRun then
        ⟨none, g.1, cnt, [], lines⟩
      else if !job.renameOk then
        ⟨none, g.1, { cnt with errors := cnt.errors + 1 }, [FsEvent.rename job.path newf],
          lines ++ [PrintLine.renameError]⟩
      else
        match dest with
        | none =>
          ⟨none, g.1, { cnt with renamed := cnt.renamed + 1 },
            [FsEvent.rename job.path newf], lines⟩
        | some dst =>
          if job.moveOk then
            ⟨none, g.1, { cnt with renamed := cnt.renamed + 1, filed := cnt.filed + 1 },
              [FsEvent.rename job.path newf, FsEvent.moveTo newf dst],
              lines ++ [PrintLine.filedTo dst]⟩
          else
            ⟨none, g.1, { cnt with renamed := cnt.renamed + 1, errors := cnt.errors + 1 },
              [FsEvent.rename job.path newf, FsEvent.moveTo newf dst],
              lines ++ [PrintLine.moveError]⟩

/-- One iteration of the `main` loop for one file. -/
def mainStep (dryRun : Bool) (dest : Option (List Char)) (st : RState) (cnt : Counters)
    (job : FileJob) : StepOut :=
  stepCore dryRun dest job (getInfo st job.parse) cnt

/-- The final summary block of `main`. -/
def summaryLines (dryRun : Bool) (dest : Option (List Char)) (n : Nat) (c : Counters) :
    List PrintLine :=
  [PrintLine.processedHeader n dryRun, PrintLine.renamedCount c.renamed] ++
    (match dest with | some _ => [PrintLine.filedCount c.filed] | none => []) ++
    [PrintLine.missingCount c.missing, PrintLine.errorsCount c.errors]

/-- The outcome of a batch run. -/
structure RunOut where
  err : Option PyErr
  cnt : Counters
  events : List FsEvent
  lines : List PrintLine
  deriving DecidableEq

/-- The `for f in self.pdf_files` loop of `main`; an uncaught exception
stops the loop. -/
def mainLoop (dryRun : Bool) (dest : Option (List Char)) :
    RState → Counters → List FileJob → RunOut
  | _, cnt, [] => ⟨none, cnt, [], []⟩
  | st, cnt, j :: rest =>
    let o := mainStep dryRun dest st cnt j
    match o.err with
    | some e => ⟨some e, o.cnt, o.events, o.lines⟩
    | none =>
      let r := mainLoop dryRun dest o.st o.cnt rest
      ⟨r.err, r.cnt, o.events ++ r.events, o.lines ++ r.lines⟩

/-- `main`: process the files in order; an uncaught exception aborts the
batch before the summary is printed. -/
def mainRun (dryRun : Bool) (dest : Option (List Char)) (jobs : List FileJob) : RunOut :=
  let r := mainLoop dryRun dest (RState.mk none) initCounters jobs
  match r.err with
  | some _ => r
  | none => { r with lines := r.lines ++ summaryLines dryRun dest jobs.length r.cnt }

/-! ### C1: a parse failure is not absorbed — the batch aborts -/

/-- C1 (code bug): with no previous successful parse, a file whose
container is malformed (`PDFSyntaxError`) makes `_get_info` read the
never-assigned `self.doc` attribute, raising an uncaught `AttributeError`
that aborts the batch before any XMP or missing-metadata outcome and
before the summary — contradicting the specified non-fatal degradation. -/
theorem parse_failure_aborts_batch :
    mainRun false none [⟨"bad.pdf".toList, .synErr, true, true⟩] =
      ⟨some PyErr.attributeErrorNoDoc, initCounters, [],
        [PrintLine.processing "bad.pdf".toList]⟩ := by
  rfl

/-! ### C2: dry-run behaviour -/

/-- Recognises the per-file intended-rename report line. -/
def isRenamingLine : PrintLine → Bool
  | PrintLine.renamingTo _ => true
  | _ => false

theorem stepCore_dry_vs (dest : Option (List Char)) (job : FileJob)
    (g : RState × List PrintLine × Except PyErr (Option (List Char) × Option (List Char)))
    (c1 c2 : Counters) :
    (stepCore true dest job g c1).err = (stepCore false dest job g c2).err ∧
    (stepCore true dest job g c1).st = (stepCore false dest job g c2).st ∧
    (stepCore true dest job g c1).events = [] ∧
    (stepCore true dest job g c1).lines.filter isRenamingLine =
      (stepCore false dest job g c2).lines.filter isRenamingLine ∧
    (stepCore true dest job g c1).cnt.renamed = c1.renamed ∧
    (stepCore true dest job g c1).cnt.filed = c1.filed ∧
    (stepCore true dest job g c1).cnt.errors = c1.errors ∧
    (stepCore true dest job g c1).cnt.missing + c2.missing =
      (stepCore false dest job g c2).cnt.missing + c1.missing := by
  obtain ⟨st', pl, r⟩ := g
  cases r with
  | error e =>
    refine ⟨rfl, rfl, rfl, rfl, rfl, rfl, rfl, ?_⟩
    show c1.missing + c2.missing = c2.missing + c1.missing
    omega
  | ok p =>
    obtain ⟨t, a⟩ := p
    simp only [stepCore]
    by_cases hguard :
        (!(truthy a ||
          truthy (if truthy a && !truthy t
                  then some (splitPath (splitext job.path).1).2 else t))) = true
    · simp only [hguard, if_true]
      refine ⟨trivial, trivial, trivial, trivial, trivial, trivial, trivial, ?_⟩
      show c1.missing + 1 + c2.missing = c2.missing + 1 + c1.missing
      omega
    · simp only [hguard, if_false, Bool.false_eq_true]
      by_cases hr : job.renameOk
      · cases dest with
        | none =>
          simp only [hr]
          refine ⟨rfl, rfl, rfl, rfl, rfl, rfl, rfl, ?_⟩
          show c1.missing + c2.missing = c2.missing + c1.missing
          omega
        | some dst =>
          by_cases hm : job.moveOk
          · simp only [hr, hm]
            refine ⟨rfl, rfl, rfl, ?_, rfl, rfl, rfl, ?_⟩
            · simp [List.filter_append, isRenamingLine]
            · show c1.missing + c2.missing = c2.missing + c1.missing
              omega
          · simp only [hr, hm]
            refine ⟨rfl, rfl, rfl, ?_, rfl, rfl, rfl, ?_⟩
            · simp [List.filter_append, isRenamingLine]
            · show c1.missing + c2.missing = c2.missing + c1.missing
              omega
      · simp only [hr]
        refine ⟨rfl, rfl, rfl, ?_, rfl, rfl, rfl, ?_⟩
        · simp [List.filter_append, isRenamingLine]
        · show c1.missing + c2.missing = c2.missing + c1.missing
          omega

theorem mainLoop_dry_vs (dest : Option (List Char)) (jobs : List FileJob) :
    ∀ (st : RState) (c1 c2 : Counters),
    (mainLoop true dest st c1 jobs).err = (mainLoop false dest st c2 jobs).err ∧
    (mainLoop true dest st c1 jobs).events = [] ∧
    (mainLoop true dest st c1 jobs).lines.filter isRenamingLine =
      (mainLoop false dest st c2 jobs).lines.filter isRenamingLine ∧
    (mainLoop true dest st c1 jobs).cnt.renamed = c1.renamed ∧
    (mainLoop true dest st c1 jobs).cnt.filed = c1.filed ∧
    (mainLoop true dest st c1 jobs).cnt.errors = c1.errors ∧
    (mainLoop true dest st c1 jobs).cnt.missing + c2.missing =
      (mainLoop false dest st c2 jobs).cnt.missing + c1.missing := by
  induction jobs with
  | nil =>
    intro st c1 c2
    refine ⟨rfl, rfl, rfl, rfl, rfl, rfl, ?_⟩
    show c1.missing + c2.missing = c2.missing + c1.missing
    omega
  | cons j rest ih =>
    intro st c1 c2
    obtain ⟨he, hst, hev, hfil, hrn, hfd, her, hms⟩ :=
      stepCore_dry_vs dest j (getInfo st j.parse) c1 c2
    simp only [mainLoop, mainStep]
    cases hoe : (stepCore true dest j (getInfo st j.parse) c1).err with
    | some e =>
      have hoe2 : (stepCore false dest j (getInfo st j.parse) c2).err = some e := by
        rw [← he, hoe]
      simp only [hoe, hoe2]
      exact ⟨trivial, hev, hfil, hrn, hfd, her, hms⟩
    | none =>
      have hoe2 : (stepCore false dest j (getInfo st j.parse) c2).err = none := by
        rw [← he, hoe]
      simp only [hoe, hoe2]
      rw [← hst]
      obtain ⟨ihe, ihev, ihfil, ihrn, ihfd, iher, ihms⟩ :=
        ih (stepCore true dest j (getInfo st j.parse) c1).st
           (stepCore true dest j (getInfo st j.parse) c1).cnt
           (stepCore false dest j (getInfo st j.parse) c2).cnt
      refine ⟨ihe, ?_, ?_, ?_, ?_, ?_, ?_⟩
      · simp [hev, ihev]
      · simp only [List.filter_append, hfil, ihfil]
      · rw [ihrn, hrn]
      · rw [ihfd, hfd]
      · rw [iher, her]
      · omega

theorem filter_summaryLines (d : Bool) (dest : Option (List Char)) (n : Nat) (c : Counters) :
    (summaryLines d dest n c).filter isRenamingLine = [] := by
  cases dest <;> simp [summaryLines, isRenamingLine]

/-- C2 (amended): with the dry-run flag set, the driver performs zero
filesystem calls regardless of metadata found, prints the same
intended-rename lines as a non-dry-run pass, aborts exactly when the
non-dry-run pass would, and its final summary reports the same
missing-metadata count — but the summary's renamed/filed/errors counters
remain zero: the intended actions appear only in the per-file lines, not in
the summary counters. -/
theorem dry_run_behavior (dest : Option (List Char)) (jobs : List FileJob) :
    (mainRun true dest jobs).events = [] ∧
    (mainRun true dest jobs).lines.filter isRenamingLine =
      (mainRun false dest jobs).lines.filter isRenamingLine ∧
    (mainRun true dest jobs).cnt.renamed = 0 ∧
    (mainRun true dest jobs).cnt.filed = 0 ∧
    (mainRun true dest jobs).cnt.errors = 0 ∧
    (mainRun true dest jobs).cnt.missing = (mainRun false dest jobs).cnt.missing ∧
    (mainRun true dest jobs).err = (mainRun false dest jobs).err := by
  obtain ⟨he, hev, hfil, hrn, hfd, her, hms⟩ :=
    mainLoop_dry_vs dest jobs (RState.mk none) initCounters initCounters
  unfold mainRun
  cases hoe : (mainLoop true dest (RState.mk none) initCounters jobs).err with
  | some e =>
    have hoe2 : (mainLoop false dest (RState.mk none) initCounters jobs).err = some e := by
      rw [← he, hoe]
    simp only [hoe, hoe2]
    refine ⟨hev, hfil, hrn, hfd, her, ?_, trivial⟩
    omega
  | none =>
    have hoe2 : (mainLoop false dest (RState.mk none) initCounters jobs).err = none := by
      rw [← he, hoe]
    simp only [hoe, hoe2]
    refine ⟨hev, ?_, hrn, hfd, her, ?_, trivial⟩
    · simp only [List.filter_append, filter_summaryLines, hfil]
    · omega

/-- Concrete single-file batch for the C2 counterexample: the file carries
an info-dictionary title, so one rename is intended. -/
def c2DemoJob : FileJob :=
  { path := "paper.pdf".toList,
    parse := .ok { info := some [{ title := some (.direct (.vbytes (asciiBytes "My Paper".toList))),
                                   author := none }],
                   catalogHasMetadata := false, xmp := .parseFailed },
    renameOk := true, moveOk := true }

/-- C2 (counterexample): in a dry run over a single file with metadata, one
rename is intended (one intended-rename line is printed), yet the final
summary's renamed counter reports 0, where the non-dry-run pass reports 1 —
the dry-run summary does not report the intended actions. -/
theorem dry_run_summary_counterexample :
    ((mainRun true none [c2DemoJob]).lines.filter isRenamingLine).length = 1 ∧
    PrintLine.renamedCount 0 ∈ (mainRun true none [c2DemoJob]).lines ∧
    PrintLine.renamedCount 1 ∈ (mainRun false none [c2DemoJob]).lines := by
  refine ⟨rfl, ?_, ?_⟩ <;> decide

/-! ### C7: base filename substitutes a missing title -/

/-- C7: when `_get_info` yields a truthy author and a falsy title, the
driver substitutes the file's current base name without its extension as
the title before building the filename — the intended-rename line reports
the name built from that base. -/
theorem author_without_title_uses_basename (dry : Bool) (dest : Option (List Char))
    (st : RState) (cnt : Counters) (job : FileJob) (t a : Option (List Char))
    (hg : (getInfo st job.parse).2.2 = .ok (t, a))
    (ha : truthy a = true) (ht : truthy t = false) :
    PrintLine.renamingTo
        (pathJoin (splitPath (splitext job.path).1).1
          (newFilename (splitPath (splitext job.path).1).2 a)) ∈
      (mainStep dry dest st cnt job).lines := by
  simp only [mainStep, stepCore, hg, ha, ht, Bool.true_and, Bool.not_false, Bool.and_self,
    if_true]
  simp only [ha, Bool.true_or, Bool.not_true]
  cases dry with
  | true => simp
  | false =>
    cases hr : job.renameOk with
    | true =>
      cases dest with
      | none => simp
      | some dst =>
        cases hm : job.moveOk with
        | true => simp
        | false => simp
    | false => simp

/-- Concrete file for the C7 witness: `report.pdf` with an info-dictionary
author and no title anywhere. -/
def c7DemoJob : FileJob :=
  { path := "report.pdf".toList,
    parse := .ok { info := some [{ title := none,
                                   author := some (.direct (.vbytes (asciiBytes "Jane Doe".toList))) }],
                   catalogHasMetadata := false, xmp := .parseFailed },
    renameOk := true, moveOk := true }

theorem author_without_title_uses_basename_witness :
    PrintLine.renamingTo "Jane Doe - report.pdf".toList ∈
      (mainStep false none ⟨none⟩ initCounters c7DemoJob).lines := by
  have h := author_without_title_uses_basename false none ⟨none⟩ initCounters c7DemoJob
      none (some "Jane Doe".toList) rfl rfl rfl
  exact h

end PdfTitleRename
